import Mathlib

/-!
Verification of the letterbox-lang core: the tokenizer in `src/lb_lexer.rs`
and the variable store in `src/storage.rs`, embedded shallowly in Lean.

The `logos`-derived scanner is modelled as a maximal-munch matcher per token
rule (the rules' leading characters are pairwise disjoint, so longest-match
disambiguation between distinct rules never arises), followed by the rule's
callback on the matched slice, exactly as in the source.  A callback that
returns `None` turns the match into an `Error` token over the same slice;
text matching no rule yields an `Error` token for the single character at
the cursor, as pinned by the repository's `tokens_parse_correctly` test.

Numbers (`f64` in the source) are modelled as rationals; the claims under
verification never exercise float-specific behaviour, and every numeric
literal involved is exactly representable.
-/

/-- The single-quote character, written via its code point. -/
def quoteCh : Char := Char.ofNat 39

/-- Whitespace class of the skip rule `[ \t\n\f\r]+` (codes 32, 9, 10, 12, 13). -/
def isWsChar (c : Char) : Bool :=
  c.toNat == 32 || c.toNat == 9 || c.toNat == 10 || c.toNat == 12 || c.toNat == 13

/-- The regex class `[a-z]`. -/
def isLowerAZ (c : Char) : Bool := 97 ≤ c.toNat && c.toNat ≤ 122

/-- The regex class `[A-Z]`. -/
def isUpperAZ (c : Char) : Bool := 65 ≤ c.toNat && c.toNat ≤ 90

/-- The regex class `[A-Za-z]`. -/
def isLetterAZ (c : Char) : Bool := isUpperAZ c || isLowerAZ c

/-- The regex class `[0-9]`. -/
def isDigit09 (c : Char) : Bool := 48 ≤ c.toNat && c.toNat ≤ 57

/-- The token type of `src/lb_lexer.rs` (`enum LbToken`).  Constructor
payloads mirror the Rust tuples; `Box<LbToken>` becomes a plain nested
`LbToken`, and `f64` payloads are modelled as `ℚ`. -/
inductive LbToken where
  | SaveNumber : Char → ℚ → LbToken
  | SaveStr : Char → String → LbToken
  | Copy : Char → Char → LbToken
  | Append : Char → Char → LbToken
  | PrintVar : Char → LbToken
  | PrintStr : String → LbToken
  | MathOp : Char → Char → Char → Char → LbToken
  | BoolOp : Char → Char → Char → Char → LbToken
  | Loop : Char → LbToken → LbToken
  | IfStatement : Char → LbToken → LbToken
  | Unless : Char → LbToken → LbToken
  | WhileLoop : Char → LbToken → LbToken
  | ResetVar : Char → LbToken
  | ResetAll : LbToken
  | GetInput : Char → Char → ℚ → LbToken
  | Negate : Char → LbToken
  | Finish : LbToken
  | Execute : Char → String → LbToken
  | Error : LbToken
deriving DecidableEq

/-- Value of a digit run, most significant first. -/
def digitsVal (l : List Char) : Nat :=
  l.foldl (fun a c => a * 10 + (c.toNat - 48)) 0

/-- `str::parse::<f64>` restricted to the decimal shapes the token regexes can
produce: optional sign, a digit run, optionally a point followed by a digit
run.  Anything else is `none` (parse failure).  Returns the value as a
numerator/denominator pair of the unsigned part. -/
def parseDecPair (l : List Char) : Option (Nat × Nat) :=
  let ds := l.takeWhile isDigit09
  if ds.length = 0 then none
  else
    match l.drop ds.length with
    | [] => some (digitsVal ds, 1)
    | '.' :: fr =>
      let fs := fr.takeWhile isDigit09
      if fs.length = 0 then none
      else if (fr.drop fs.length).length ≠ 0 then none
      else some (digitsVal ds * 10 ^ fs.length + digitsVal fs, 10 ^ fs.length)
    | _ => none

/-- Signed decimal parse (see `parseDecPair`), as a rational. -/
def parseF64 (l : List Char) : Option ℚ :=
  match l with
  | '-' :: t => (parseDecPair t).map (fun p => mkRat (-(p.1 : Int)) p.2)
  | _ => (parseDecPair l).map (fun p => mkRat ((p.1 : Int)) p.2)

/-- `str::trim_matches('\'')`: strip all leading and trailing quote chars. -/
def trimQuotes (l : List Char) : List Char :=
  ((l.dropWhile (fun x => x = quoteCh)).reverse.dropWhile (fun x => x = quoteCh)).reverse

/- Maximal-munch matchers, one per token rule.  Each takes the character at
the cursor and the remaining characters, and returns the total length of the
maximal match of the rule's regex at the cursor (`none` if the rule does not
match there). -/

/-- Match length of `S[a-z]\-?[0-9]+(\.[0-9]+)?` at the cursor. -/
def m_SaveNumber (c : Char) (cs : List Char) : Option Nat :=
  if c = 'S' then
    match cs with
    | v :: rest =>
      if isLowerAZ v then
        (match rest with
         | '-' :: t => (numTailLen t).map (fun k => k + 3)
         | _ => (numTailLen rest).map (fun k => k + 2))
      else none
    | [] => none
  else none
where
  /-- Length of `[0-9]+(\.[0-9]+)?` (greedy: the point is consumed only when
  a digit follows it). -/
  numTailLen (l : List Char) : Option Nat :=
    let ds := l.takeWhile isDigit09
    if ds.length = 0 then none
    else
      match l.drop ds.length with
      | '.' :: t2 =>
        let fs := t2.takeWhile isDigit09
        if fs.length = 0 then some ds.length else some (ds.length + 1 + fs.length)
      | _ => some ds.length

/-- Match length of `S[a-z]'[^']*'` at the cursor. -/
def m_SaveStr (c : Char) (cs : List Char) : Option Nat :=
  if c = 'S' then
    match cs with
    | v :: q :: rest =>
      if isLowerAZ v && (q = quoteCh) then
        let body := rest.takeWhile (fun x => ¬ (x = quoteCh))
        match rest.drop body.length with
        | q2 :: _ => if q2 = quoteCh then some (body.length + 4) else none
        | [] => none
      else none
    | _ => none
  else none

/-- Match length of `C[a-z][a-z]`. -/
def m_Copy (c : Char) (cs : List Char) : Option Nat :=
  if c = 'C' then
    match cs with
    | a :: b :: _ => if isLowerAZ a && isLowerAZ b then some 3 else none
    | _ => none
  else none

/-- Match length of `A[a-z][a-z]`. -/
def m_Append (c : Char) (cs : List Char) : Option Nat :=
  if c = 'A' then
    match cs with
    | a :: b :: _ => if isLowerAZ a && isLowerAZ b then some 3 else none
    | _ => none
  else none

/-- Match length of `P[a-z]`. -/
def m_PrintVar (c : Char) (cs : List Char) : Option Nat :=
  if c = 'P' then
    match cs with
    | v :: _ => if isLowerAZ v then some 2 else none
    | [] => none
  else none

/-- Match length of `P'[^']*'`. -/
def m_PrintStr (c : Char) (cs : List Char) : Option Nat :=
  if c = 'P' then
    match cs with
    | q :: rest =>
      if q = quoteCh then
        let body := rest.takeWhile (fun x => ¬ (x = quoteCh))
        match rest.drop body.length with
        | q2 :: _ => if q2 = quoteCh then some (body.length + 3) else none
        | [] => none
      else none
    | [] => none
  else none

/-- Match length of `M[A-Z][a-z][a-z][a-z]`. -/
def m_MathOp (c : Char) (cs : List Char) : Option Nat :=
  if c = 'M' then
    match cs with
    | o :: a :: b :: d :: _ =>
      if isUpperAZ o && isLowerAZ a && isLowerAZ b && isLowerAZ d then some 5 else none
    | _ => none
  else none

/-- Match length of `B[A-Z][a-z][a-z][a-z]`. -/
def m_BoolOp (c : Char) (cs : List Char) : Option Nat :=
  if c = 'B' then
    match cs with
    | o :: a :: b :: d :: _ =>
      if isUpperAZ o && isLowerAZ a && isLowerAZ b && isLowerAZ d then some 5 else none
    | _ => none
  else none

/-- Match length of the four control rules `L[a-z][A-Za-z]+`,
`I[a-z][A-Za-z]+`, `U[a-z][A-Za-z]+`, `W[a-z][A-Za-z]+`: the trailing
letter run is consumed greedily. -/
def m_Ctrl (c : Char) (cs : List Char) : Option Nat :=
  if c = 'L' ∨ c = 'I' ∨ c = 'U' ∨ c = 'W' then
    match cs with
    | v :: rest =>
      if isLowerAZ v then
        let k := (rest.takeWhile isLetterAZ).length
        if k = 0 then none else some (k + 2)
      else none
    | [] => none
  else none

/-- Match length of `R[a-z]`. -/
def m_ResetVar (c : Char) (cs : List Char) : Option Nat :=
  if c = 'R' then
    match cs with
    | v :: _ => if isLowerAZ v then some 2 else none
    | [] => none
  else none

/-- Match length of `RA`. -/
def m_ResetAll (c : Char) (cs : List Char) : Option Nat :=
  if c = 'R' then
    match cs with
    | a :: _ => if a = 'A' then some 2 else none
    | [] => none
  else none

/-- Match length of `G[A-Z][a-z][0-9]+`. -/
def m_GetInput (c : Char) (cs : List Char) : Option Nat :=
  if c = 'G' then
    match cs with
    | o :: v :: rest =>
      if isUpperAZ o && isLowerAZ v then
        let k := (rest.takeWhile isDigit09).length
        if k = 0 then none else some (k + 3)
      else none
    | _ => none
  else none

/-- Match length of `N[a-z]`. -/
def m_Negate (c : Char) (cs : List Char) : Option Nat :=
  if c = 'N' then
    match cs with
    | v :: _ => if isLowerAZ v then some 2 else none
    | [] => none
  else none

/-- Match length of `F`. -/
def m_Finish (c : Char) (_cs : List Char) : Option Nat :=
  if c = 'F' then some 1 else none

/-- Match length of `X[a-z]([a-z][a-z])*`: after the function variable, the
greedy star consumes lowercase letters in pairs. -/
def m_Execute (c : Char) (cs : List Char) : Option Nat :=
  if c = 'X' then
    match cs with
    | v :: rest =>
      if isLowerAZ v then some ((rest.takeWhile isLowerAZ).length / 2 * 2 + 2) else none
    | [] => none
  else none

/- Callbacks, mirroring the parser methods of `src/lb_lexer.rs`.  Each takes
the matched slice (`lex.slice()`). -/

/-- `fn save_number`. -/
def save_number (token : List Char) : Option (Char × ℚ) :=
  match token.get? 1, parseF64 (token.drop 2) with
  | some v, some n => some (v, n)
  | _, _ => none

/-- `fn save_str`. -/
def save_str (token : List Char) : Option (Char × String) :=
  match token.get? 1 with
  | some v => some (v, String.mk (trimQuotes (token.drop 2)))
  | none => none

/-- `fn copy` (shared by the `Copy` and `Append` rules). -/
def copy (token : List Char) : Option (Char × Char) :=
  match token.get? 1, token.get? 2 with
  | some a, some b => some (a, b)
  | _, _ => none

/-- `fn single_var_arg`. -/
def single_var_arg (token : List Char) : Option Char := token.get? 1

/-- `fn print_str`. -/
def print_str (token : List Char) : Option String :=
  some (String.mk (trimQuotes (token.drop 1)))

/-- `fn math_op`: the operator must be one of `ASMDEGLR`. -/
def math_op (token : List Char) : Option (Char × Char × Char × Char) :=
  let valid_ops := "ASMDEGLR"
  let args := token.drop 1
  if args.length ≠ 4 then none
  else
    match args.get? 0, args.get? 1, args.get? 2, args.get? 3 with
    | some o, some a, some b, some d =>
      if valid_ops.toList.contains o then some (o, a, b, d) else none
    | _, _, _, _ => none

/-- `fn bool_op`: the operator must be one of `EAOX`. -/
def bool_op (token : List Char) : Option (Char × Char × Char × Char) :=
  let valid_ops := "EAOX"
  let args := token.drop 1
  if args.length ≠ 4 then none
  else
    match args.get? 0, args.get? 1, args.get? 2, args.get? 3 with
    | some o, some a, some b, some d =>
      if valid_ops.toList.contains o then some (o, a, b, d) else none
    | _, _, _, _ => none

/-- `fn base_loop`, parameterised by the sub-lexer (`lex_sub`) it invokes on
the consumed span after the condition variable. -/
def base_loop (ls : List Char → Option LbToken) (token : List Char) :
    Option (Char × LbToken) :=
  match token.get? 1 with
  | some condition =>
    let cmd_string := token.drop 2
    if cmd_string.length = 0 then none
    else
      match ls cmd_string with
      | some subcommand => some (condition, subcommand)
      | none => none
  | none => none

/-- `fn execute_var`. -/
def execute_var (token : List Char) : Option (Char × String) :=
  match token.get? 1 with
  | some fn_var => some (fn_var, String.mk (token.drop 2))
  | none => none

/-- `fn get_input`: the kind must be `N` or `S`. -/
def get_input (token : List Char) : Option (Char × Char × ℚ) :=
  let valid_ops := "NS"
  match token.get? 1, token.get? 2 with
  | some o, some v =>
    if valid_ops.toList.contains o then
      match parseF64 (token.drop 3) with
      | some n => some (o, v, n)
      | none => none
    else none
  | _, _ => none

/-- Selects the control-token constructor for the rule's leading character. -/
def ctrlOf (c : Char) (cond : Char) (sub : LbToken) : LbToken :=
  if c = 'L' then .Loop cond sub
  else if c = 'I' then .IfStatement cond sub
  else if c = 'U' then .Unless cond sub
  else .WhileLoop cond sub

/-- One scan step at a non-trivia cursor position `c :: cs`: try each rule's
matcher (their leading characters are pairwise disjoint), run its callback on
the matched slice, and fall back to a single-character `Error` token when no
rule matches.  A callback returning `none` yields an `Error` token over the
matched slice. -/
def scanOne (ls : List Char → Option LbToken) (c : Char) (cs : List Char) :
    LbToken × List Char :=
  match m_SaveNumber c cs with
  | some n =>
    ((match save_number ((c :: cs).take n) with
      | some p => LbToken.SaveNumber p.1 p.2
      | none => LbToken.Error), (c :: cs).drop n)
  | none =>
  match m_SaveStr c cs with
  | some n =>
    ((match save_str ((c :: cs).take n) with
      | some p => LbToken.SaveStr p.1 p.2
      | none => LbToken.Error), (c :: cs).drop n)
  | none =>
  match m_Copy c cs with
  | some n =>
    ((match copy ((c :: cs).take n) with
      | some p => LbToken.Copy p.1 p.2
      | none => LbToken.Error), (c :: cs).drop n)
  | none =>
  match m_Append c cs with
  | some n =>
    ((match copy ((c :: cs).take n) with
      | some p => LbToken.Append p.1 p.2
      | none => LbToken.Error), (c :: cs).drop n)
  | none =>
  match m_PrintVar c cs with
  | some n =>
    ((match single_var_arg ((c :: cs).take n) with
      | some v => LbToken.PrintVar v
      | none => LbToken.Error), (c :: cs).drop n)
  | none =>
  match m_PrintStr c cs with
  | some n =>
    ((match print_str ((c :: cs).take n) with
      | some s => LbToken.PrintStr s
      | none => LbToken.Error), (c :: cs).drop n)
  | none =>
  match m_MathOp c cs with
  | some n =>
    ((match math_op ((c :: cs).take n) with
      | some p => LbToken.MathOp p.1 p.2.1 p.2.2.1 p.2.2.2
      | none => LbToken.Error), (c :: cs).drop n)
  | none =>
  match m_BoolOp c cs with
  | some n =>
    ((match bool_op ((c :: cs).take n) with
      | some p => LbToken.BoolOp p.1 p.2.1 p.2.2.1 p.2.2.2
      | none => LbToken.Error), (c :: cs).drop n)
  | none =>
  match m_Ctrl c cs with
  | some n =>
    ((match base_loop ls ((c :: cs).take n) with
      | some p => ctrlOf c p.1 p.2
      | none => LbToken.Error), (c :: cs).drop n)
  | none =>
  match m_ResetVar c cs with
  | some n =>
    ((match single_var_arg ((c :: cs).take n) with
      | some v => LbToken.ResetVar v
      | none => LbToken.Error), (c :: cs).drop n)
  | none =>
  match m_ResetAll c cs with
  | some n => (LbToken.ResetAll, (c :: cs).drop n)
  | none =>
  match m_GetInput c cs with
  | some n =>
    ((match get_input ((c :: cs).take n) with
      | some p => LbToken.GetInput p.1 p.2.1 p.2.2
      | none => LbToken.Error), (c :: cs).drop n)
  | none =>
  match m_Negate c cs with
  | some n =>
    ((match single_var_arg ((c :: cs).take n) with
      | some v => LbToken.Negate v
      | none => LbToken.Error), (c :: cs).drop n)
  | none =>
  match m_Finish c cs with
  | some n => (LbToken.Finish, (c :: cs).drop n)
  | none =>
  match m_Execute c cs with
  | some n =>
    ((match execute_var ((c :: cs).take n) with
      | some p => LbToken.Execute p.1 p.2
      | none => LbToken.Error), (c :: cs).drop n)
  | none => (LbToken.Error, cs)

/-- Skipping of the two skip rules, comments `![^\n\r]*` and whitespace
`[ \t\n\f\r]+`, character by character; `true` means the cursor is inside a
comment (which a carriage return or newline ends). -/
def skipTriviaAux : Bool → List Char → List Char
  | _, [] => []
  | false, c :: cs =>
    if isWsChar c then skipTriviaAux false cs
    else if c = '!' then skipTriviaAux true cs
    else c :: cs
  | true, c :: cs =>
    if c.toNat == 10 || c.toNat == 13 then skipTriviaAux false cs
    else skipTriviaAux true cs

/-- Skip comments and whitespace at the cursor. -/
def skipTrivia (l : List Char) : List Char := skipTriviaAux false l

/-- One call of `Lexer::next`, with explicit fuel bounding the nesting depth
of control tokens (each nesting level consumes at least two characters, so
`length + 1` fuel always suffices).  Returns the token and the unconsumed
remainder of the input. -/
def nextTokF : Nat → List Char → Option (LbToken × List Char)
  | 0, _ => none
  | fuel + 1, l =>
    match skipTrivia l with
    | [] => none
    | c :: cs => some (scanOne (fun sub => (nextTokF fuel sub).map Prod.fst) c cs)

/-- `Lexer::next` on the given input. -/
def nextTok (l : List Char) : Option (LbToken × List Char) :=
  nextTokF (l.length + 1) l

/-- `fn lex_sub`: lex a subcommand string and keep only the first token. -/
def lex_sub (sub : List Char) : Option LbToken := (nextTok sub).map Prod.fst

/-- One-step unfolding of `nextTok` with the self-fueled sub-lexer; proved
equal to `nextTok` below. -/
def nextTokSpec (l : List Char) : Option (LbToken × List Char) :=
  match skipTrivia l with
  | [] => none
  | c :: cs => some (scanOne lex_sub c cs)

/-- Repeated `Lexer::next` until exhaustion, fuel-bounded (every token
consumes at least one character). -/
def tokenizeF : Nat → List Char → List LbToken
  | 0, _ => []
  | fuel + 1, l =>
    match nextTok l with
    | none => []
    | some (t, r) => t :: tokenizeF fuel r

/-- The full token sequence of a source text. -/
def tokenize (l : List Char) : List LbToken := tokenizeF (l.length + 1) l

/-- Modelled from the spec: the value type `Val` lives in `src/program.rs`
(declared by `mod program` in `lib.rs`), which is not among the provided
sources.  Spec §3 defines Value as a tagged union `{Number(float64),
Text(string)}`; the `f64` payload is modelled as a rational. -/
inductive Val where
  | Number : ℚ → Val
  | Text : String → Val
deriving DecidableEq

/-- Modelled from the spec: the zero default of an unset slot is
`Number(0.0)` (spec §3 and the doc comment of `get_var`). -/
def Val.zero : Val := Val.Number 0

/-- `const VALID_VARS` of `src/storage.rs`. -/
def VALID_VARS : String := "abcdefghijklmnopqrstuvwxyz"

/-- `fn is_var`: true iff the character is a valid variable name. -/
def is_var (c : Char) : Bool := VALID_VARS.toList.contains c

/-- `struct LbStorage`: the `HashMap<char, Val>` is modelled as a function
to `Option Val` (`none` = key absent). -/
structure LbStorage where
  data : Char → Option Val

/-- `LbStorage::new`. -/
def LbStorage.new : LbStorage := ⟨fun _ => none⟩

/-- `fn get_var`: `None` on an invalid name; otherwise
`entry(name).or_insert(Val::zero())` — the stored value, or the zero
default, which is inserted into (materialized in) the map.  The mutated
`self` is returned as the second component. -/
def LbStorage.get_var (s : LbStorage) (var_name : Char) : Option Val × LbStorage :=
  if is_var var_name = false then (none, s)
  else
    match s.data var_name with
    | some v => (some v, s)
    | none => (some Val.zero, ⟨fun x => if x = var_name then some Val.zero else s.data x⟩)

/-- `fn set_var`: inserts unconditionally (no name-validity or type check)
and always returns `Ok(())`. -/
def LbStorage.set_var (s : LbStorage) (var_name : Char) (new_value : Val) :
    Except String Unit × LbStorage :=
  (Except.ok (), ⟨fun x => if x = var_name then some new_value else s.data x⟩)

/-- `fn reset_var`: removes the key, restoring the zero default. -/
def LbStorage.reset_var (s : LbStorage) (var_name : Char) :
    Except String Unit × LbStorage :=
  (Except.ok (), ⟨fun x => if x = var_name then none else s.data x⟩)

/-- `fn reset_all`: clears the map. -/
def LbStorage.reset_all (_s : LbStorage) : Except String Unit × LbStorage :=
  (Except.ok (), LbStorage.new)

/-- `fn copy`: `get_var(from).expect(..)` — the outer `none` models the
panic of `.expect` when `get_var` returns `None` — then clones the value
and `set_var`s it into the target. -/
def LbStorage.copy (s : LbStorage) (from_var to_var : Char) :
    Option (Except String Unit × LbStorage) :=
  match s.get_var from_var with
  | (none, _) => none
  | (some x, s1) => some (s1.set_var to_var x)

/-- The boolean reading of a value, extracted from the match in
`var_as_bool`: `false` iff the value is the number 0; any text is `true`. -/
def valTruthy : Val → Bool
  | .Number n => decide (n ≠ 0)
  | .Text _ => true

/-- `fn var_as_bool`: `get_var(name).expect(..)` — the outer `none` models
the panic of `.expect` on an invalid name — then `Some(false)` iff the
value is the number 0. -/
def LbStorage.var_as_bool (s : LbStorage) (var_name : Char) :
    Option (Option Bool × LbStorage) :=
  match s.get_var var_name with
  | (none, _) => none
  | (some x, s1) => some (some (valTruthy x), s1)

lemma length_takeWhile_le' {α : Type} (p : α → Bool) :
    ∀ l : List α, (l.takeWhile p).length ≤ l.length := by
  intro l
  induction l with
  | nil => simp
  | cons a t ih =>
    by_cases h : p a
    · simp [List.takeWhile_cons_of_pos h]
      omega
    · simp [List.takeWhile_cons_of_neg h]

lemma take_len_takeWhile {α : Type} (p : α → Bool) :
    ∀ l : List α, l.take (l.takeWhile p).length = l.takeWhile p := by
  intro l
  induction l with
  | nil => simp
  | cons a t ih =>
    by_cases h : p a
    · simp [List.takeWhile_cons_of_pos h, ih]
    · simp [List.takeWhile_cons_of_neg h]

lemma drop_len_takeWhile {α : Type} (p : α → Bool) :
    ∀ l : List α, l.drop (l.takeWhile p).length = l.dropWhile p := by
  intro l
  induction l with
  | nil => simp
  | cons a t ih =>
    by_cases h : p a
    · simp [List.takeWhile_cons_of_pos h, List.dropWhile_cons_of_pos h, ih]
    · simp [List.takeWhile_cons_of_neg h, List.dropWhile_cons_of_neg h]

lemma skipTriviaAux_length (l : List Char) :
    ∀ b, (skipTriviaAux b l).length ≤ l.length := by
  induction l with
  | nil => intro b; cases b <;> simp [skipTriviaAux]
  | cons c cs ih =>
    intro b
    cases b with
    | false =>
      simp only [skipTriviaAux]
      split_ifs with h1 h2
      · exact (ih false).trans (by simp)
      · exact (ih true).trans (by simp)
      · simp
    | true =>
      simp only [skipTriviaAux]
      split_ifs with h1
      · exact (ih false).trans (by simp)
      · exact (ih true).trans (by simp)

lemma skipTrivia_length (l : List Char) : (skipTrivia l).length ≤ l.length :=
  skipTriviaAux_length l false

lemma skipTrivia_cons_of {c : Char} {cs : List Char}
    (h1 : isWsChar c = false) (h2 : ¬ c = '!') :
    skipTrivia (c :: cs) = c :: cs := by
  simp [skipTrivia, skipTriviaAux, h1, h2]

lemma letter_not_ws {c : Char} (h : isLetterAZ c = true) : isWsChar c = false := by
  simp only [isLetterAZ, isUpperAZ, isLowerAZ, Bool.or_eq_true, Bool.and_eq_true,
    decide_eq_true_eq] at h
  simp only [isWsChar, Bool.or_eq_false_iff, beq_eq_false_iff_ne, ne_eq]
  omega

lemma letter_not_bang {c : Char} (h : isLetterAZ c = true) : ¬ c = '!' := by
  intro hc
  subst hc
  simp [isLetterAZ, isUpperAZ, isLowerAZ] at h

lemma m_Ctrl_inv {c : Char} {cs : List Char} {n : Nat} (hm : m_Ctrl c cs = some n) :
    ∃ v rest, cs = v :: rest ∧ isLowerAZ v = true ∧
      (rest.takeWhile isLetterAZ).length ≠ 0 ∧
      n = (rest.takeWhile isLetterAZ).length + 2 := by
  unfold m_Ctrl at hm
  split at hm
  · cases cs with
    | nil => simp at hm
    | cons v rest =>
      simp only at hm
      split at hm
      · split at hm
        · simp at hm
        · exact ⟨v, rest, rfl, by assumption, by assumption, (Option.some_inj.mp hm).symm⟩
      · simp at hm
  · simp at hm

lemma base_loop_congr {ls1 ls2 : List Char → Option LbToken} {tok : List Char}
    (h : ls1 (tok.drop 2) = ls2 (tok.drop 2)) :
    base_loop ls1 tok = base_loop ls2 tok := by
  unfold base_loop
  simp only [h]

lemma scanOne_congr (ls1 ls2 : List Char → Option LbToken) (c : Char) (cs : List Char)
    (h : ∀ sub : List Char, sub.length < cs.length → ls1 sub = ls2 sub) :
    scanOne ls1 c cs = scanOne ls2 c cs := by
  unfold scanOne
  cases m_SaveNumber c cs with
  | some n => rfl
  | none =>
  cases m_SaveStr c cs with
  | some n => rfl
  | none =>
  cases m_Copy c cs with
  | some n => rfl
  | none =>
  cases m_Append c cs with
  | some n => rfl
  | none =>
  cases m_PrintVar c cs with
  | some n => rfl
  | none =>
  cases m_PrintStr c cs with
  | some n => rfl
  | none =>
  cases m_MathOp c cs with
  | some n => rfl
  | none =>
  cases m_BoolOp c cs with
  | some n => rfl
  | none =>
  cases hm : m_Ctrl c cs with
  | some n =>
    obtain ⟨v, rest, rfl, hv, hk, rfl⟩ := m_Ctrl_inv hm
    have hb : base_loop ls1
          ((c :: v :: rest).take ((rest.takeWhile isLetterAZ).length + 2))
        = base_loop ls2
          ((c :: v :: rest).take ((rest.takeWhile isLetterAZ).length + 2)) := by
      apply base_loop_congr
      apply h
      have h1 : ((c :: v :: rest).take ((rest.takeWhile isLetterAZ).length + 2)).drop 2
          = rest.take (rest.takeWhile isLetterAZ).length := rfl
      rw [h1]
      have h2 := List.length_take ((rest.takeWhile isLetterAZ).length) rest
      simp only [List.length_cons]
      omega
    show ((match base_loop ls1
            ((c :: v :: rest).take ((rest.takeWhile isLetterAZ).length + 2)) with
          | some p => ctrlOf c p.1 p.2
          | none => LbToken.Error),
         (c :: v :: rest).drop ((rest.takeWhile isLetterAZ).length + 2))
        = ((match base_loop ls2
            ((c :: v :: rest).take ((rest.takeWhile isLetterAZ).length + 2)) with
          | some p => ctrlOf c p.1 p.2
          | none => LbToken.Error),
         (c :: v :: rest).drop ((rest.takeWhile isLetterAZ).length + 2))
    rw [hb]
  | none =>
  cases m_ResetVar c cs with
  | some n => rfl
  | none =>
  cases m_ResetAll c cs with
  | some n => rfl
  | none =>
  cases m_GetInput c cs with
  | some n => rfl
  | none =>
  cases m_Negate c cs with
  | some n => rfl
  | none =>
  cases m_Finish c cs with
  | some n => rfl
  | none =>
  cases m_Execute c cs with
  | some n => rfl
  | none => rfl

lemma nextTokF_eq_spec_aux :
    ∀ N : Nat, ∀ l : List Char, l.length ≤ N →
      ∀ fuel : Nat, l.length < fuel → nextTokF fuel l = nextTokSpec l := by
  intro N
  induction N with
  | zero =>
    intro l hl fuel hf
    have hnil : l = [] := List.length_eq_zero.mp (Nat.le_zero.mp hl)
    subst hnil
    obtain ⟨f, rfl⟩ : ∃ f, fuel = f + 1 := ⟨fuel - 1, by omega⟩
    simp [nextTokF, nextTokSpec, skipTrivia, skipTriviaAux]
  | succ N ih =>
    intro l hl fuel hf
    obtain ⟨f, rfl⟩ : ∃ f, fuel = f + 1 := ⟨fuel - 1, by omega⟩
    have hst := skipTrivia_length l
    simp only [nextTokF, nextTokSpec]
    cases hsk : skipTrivia l with
    | nil => simp
    | cons c cs =>
      rw [hsk] at hst
      simp only [List.length_cons] at hst
      have : scanOne (fun sub => (nextTokF f sub).map Prod.fst) c cs
           = scanOne lex_sub c cs := by
        apply scanOne_congr
        intro sub hsub
        have e1 : nextTokF f sub = nextTokSpec sub :=
          ih sub (by omega) f (by omega)
        have e2 : nextTok sub = nextTokSpec sub :=
          ih sub (by omega) (sub.length + 1) (by omega)
        simp only [lex_sub, e1, e2]
      show some (scanOne (fun sub => (nextTokF f sub).map Prod.fst) c cs)
          = some (scanOne lex_sub c cs)
      rw [this]

lemma nextTok_eq_spec (l : List Char) : nextTok l = nextTokSpec l :=
  nextTokF_eq_spec_aux l.length l le_rfl (l.length + 1) (by omega)

lemma scanOne_ctrl (ls : List Char → Option LbToken) (kc cond : Char) (cs2 : List Char)
    (hk : kc = 'L' ∨ kc = 'I' ∨ kc = 'U' ∨ kc = 'W')
    (hc : isLowerAZ cond = true)
    (hsp : cs2.takeWhile isLetterAZ ≠ []) :
    scanOne ls kc (cond :: cs2) =
      ((match ls (cs2.takeWhile isLetterAZ) with
        | some t => ctrlOf kc cond t
        | none => LbToken.Error), cs2.dropWhile isLetterAZ) := by
  have hS : ¬ kc = 'S' := by rcases hk with rfl | rfl | rfl | rfl <;> decide
  have hC : ¬ kc = 'C' := by rcases hk with rfl | rfl | rfl | rfl <;> decide
  have hA : ¬ kc = 'A' := by rcases hk with rfl | rfl | rfl | rfl <;> decide
  have hP : ¬ kc = 'P' := by rcases hk with rfl | rfl | rfl | rfl <;> decide
  have hM : ¬ kc = 'M' := by rcases hk with rfl | rfl | rfl | rfl <;> decide
  have hB : ¬ kc = 'B' := by rcases hk with rfl | rfl | rfl | rfl <;> decide
  have hk0 : ¬ ((cs2.takeWhile isLetterAZ).length = 0) := by
    simpa [List.length_eq_zero] using hsp
  have h1 : m_SaveNumber kc (cond :: cs2) = none := by simp [m_SaveNumber, hS]
  have h2 : m_SaveStr kc (cond :: cs2) = none := by simp [m_SaveStr, hS]
  have h3 : m_Copy kc (cond :: cs2) = none := by simp [m_Copy, hC]
  have h4 : m_Append kc (cond :: cs2) = none := by simp [m_Append, hA]
  have h5 : m_PrintVar kc (cond :: cs2) = none := by simp [m_PrintVar, hP]
  have h6 : m_PrintStr kc (cond :: cs2) = none := by simp [m_PrintStr, hP]
  have h7 : m_MathOp kc (cond :: cs2) = none := by simp [m_MathOp, hM]
  have h8 : m_BoolOp kc (cond :: cs2) = none := by simp [m_BoolOp, hB]
  have hmc : m_Ctrl kc (cond :: cs2) = some ((cs2.takeWhile isLetterAZ).length + 2) := by
    unfold m_Ctrl
    rw [if_pos hk]
    simp [hc, hk0]
  have hcmd : cs2.take (cs2.takeWhile isLetterAZ).length = cs2.takeWhile isLetterAZ :=
    take_len_takeWhile isLetterAZ cs2
  have hbl : base_loop ls (kc :: cond :: cs2.take (cs2.takeWhile isLetterAZ).length)
      = match ls (cs2.takeWhile isLetterAZ) with
        | some t => some (cond, t)
        | none => none := by
    unfold base_loop
    show (let cmd_string := cs2.take (cs2.takeWhile isLetterAZ).length
          if cmd_string.length = 0 then none
          else
            match ls cmd_string with
            | some subcommand => some (cond, subcommand)
            | none => none) = _
    rw [hcmd, if_neg hk0]
  unfold scanOne
  rw [h1, h2, h3, h4, h5, h6, h7, h8, hmc]
  show ((match base_loop ls
          ((kc :: cond :: cs2).take ((cs2.takeWhile isLetterAZ).length + 2)) with
        | some p => ctrlOf kc p.1 p.2
        | none => LbToken.Error),
       (kc :: cond :: cs2).drop ((cs2.takeWhile isLetterAZ).length + 2))
      = ((match ls (cs2.takeWhile isLetterAZ) with
        | some t => ctrlOf kc cond t
        | none => LbToken.Error), cs2.dropWhile isLetterAZ)
  have hslice : (kc :: cond :: cs2).take ((cs2.takeWhile isLetterAZ).length + 2)
      = kc :: cond :: cs2.take (cs2.takeWhile isLetterAZ).length := rfl
  have hdrop : (kc :: cond :: cs2).drop ((cs2.takeWhile isLetterAZ).length + 2)
      = cs2.dropWhile isLetterAZ := by
    show cs2.drop (cs2.takeWhile isLetterAZ).length = cs2.dropWhile isLetterAZ
    exact drop_len_takeWhile isLetterAZ cs2
  rw [hslice, hbl, hdrop]
  cases ls (cs2.takeWhile isLetterAZ) with
  | some t => rfl
  | none => rfl

lemma nextTok_cons_isSome (c : Char) (cs : List Char)
    (h1 : isWsChar c = false) (h2 : ¬ c = '!') :
    nextTok (c :: cs) = some (scanOne lex_sub c cs) := by
  rw [nextTok_eq_spec]
  unfold nextTokSpec
  rw [skipTrivia_cons_of h1 h2]

lemma lex_sub_letter_isSome {h : Char} {t : List Char} (hh : isLetterAZ h = true) :
    ∃ tok, lex_sub (h :: t) = some tok := by
  refine ⟨(scanOne lex_sub h t).1, ?_⟩
  unfold lex_sub
  rw [nextTok_cons_isSome h t (letter_not_ws hh) (letter_not_bang hh)]
  rfl

/-- Claim C1: for each of the four control-flow instruction kinds (`Loop`,
`IfStatement`, `Unless`, `WhileLoop`), the tokenizer greedily consumes the
maximal run of letters following the single condition-variable character,
re-lexes only that consumed span, takes the first token produced from it
(`lex_sub`) as the one nested body, and discards the span's remaining
characters, which never become separate tokens of the outer scan: the scan
resumes only after the whole letter run.  In particular, tokenizing
`LaPbPc` yields exactly one token, `Loop('a', PrintVar('b'))`, and no token
for `Pc`. -/
theorem ctrl_body_is_first_token_of_greedy_span :
    (∀ kc : Char, kc = 'L' ∨ kc = 'I' ∨ kc = 'U' ∨ kc = 'W' →
      ∀ (cond : Char) (cs2 : List Char), isLowerAZ cond = true →
        cs2.takeWhile isLetterAZ ≠ [] →
        nextTok (kc :: cond :: cs2)
          = (lex_sub (cs2.takeWhile isLetterAZ)).map
              (fun t => (ctrlOf kc cond t, cs2.dropWhile isLetterAZ)))
  ∧ tokenize ("LaPbPc".toList) = [LbToken.Loop 'a' (LbToken.PrintVar 'b')] := by
  constructor
  · intro kc hk cond cs2 hc hsp
    have hws : isWsChar kc = false := by rcases hk with rfl | rfl | rfl | rfl <;> decide
    have hbang : ¬ kc = '!' := by rcases hk with rfl | rfl | rfl | rfl <;> decide
    rw [nextTok_cons_isSome kc (cond :: cs2) hws hbang]
    rw [scanOne_ctrl lex_sub kc cond cs2 hk hc hsp]
    obtain ⟨h0, t0, hspan⟩ : ∃ h0 t0, cs2.takeWhile isLetterAZ = h0 :: t0 := by
      cases hx : cs2.takeWhile isLetterAZ with
      | nil => exact absurd hx hsp
      | cons a b => exact ⟨a, b, rfl⟩
    have hlet : isLetterAZ h0 = true := by
      have hmem : h0 ∈ cs2.takeWhile isLetterAZ := by
        rw [hspan]; exact List.mem_cons_self _ _
      exact List.mem_takeWhile_imp hmem
    obtain ⟨tok, htok⟩ : ∃ tok, lex_sub (cs2.takeWhile isLetterAZ) = some tok := by
      rw [hspan]; exact lex_sub_letter_isSome hlet
    rw [htok]
    rfl
  · decide

/-- Claim C1 witness: the general statement applied at `LaPbPc`. -/
theorem ctrl_body_is_first_token_of_greedy_span_witness :
    nextTok ('L' :: 'a' :: "PbPc".toList)
      = (lex_sub (("PbPc".toList).takeWhile isLetterAZ)).map
          (fun t => (ctrlOf 'L' 'a' t, ("PbPc".toList).dropWhile isLetterAZ)) :=
  ctrl_body_is_first_token_of_greedy_span.1 'L' (Or.inl rfl) 'a'
    ("PbPc".toList) (by decide) (by decide)

/-- Claim C2: tokenizing `MAbcd RA WaIcXzabcd` yields exactly three tokens:
`MathOp('A','b','c','d')`, `ResetAll`, and a `WhileLoop` on `a` whose body
is an `IfStatement` on `c` whose body is `Execute('z', "abcd")`. -/
theorem tokenize_nested_control_example :
    tokenize ("MAbcd RA WaIcXzabcd".toList)
      = [LbToken.MathOp 'A' 'b' 'c' 'd',
         LbToken.ResetAll,
         LbToken.WhileLoop 'a'
           (LbToken.IfStatement 'c' (LbToken.Execute 'z' ("abcd")))] := by
  decide

/-- Claim C6: at a cursor position whose character starts no instruction
form (and is not skipped trivia), the scanner emits one `Error` token for
that single character and continues scanning the rest; and the repository's
own example `Sa4.4 Cab P'hello world' Pa i` produces its four recognized
tokens followed by a single `Error` token for the trailing `i`. -/
theorem error_token_single_char_recovery :
    (∀ (c : Char) (rest : List Char), isWsChar c = false → ¬ c = '!' →
      c ∉ (['S', 'C', 'A', 'P', 'M', 'B', 'L', 'I', 'U', 'W', 'R', 'G', 'N',
            'F', 'X'] : List Char) →
      tokenize (c :: rest) = LbToken.Error :: tokenize rest)
  ∧ tokenize ("Sa4.4 Cab P".toList ++ (quoteCh :: "hello world".toList)
        ++ (quoteCh :: " Pa i".toList))
      = [LbToken.SaveNumber 'a' (mkRat 22 5), LbToken.Copy 'a' 'b',
         LbToken.PrintStr ("hello world"), LbToken.PrintVar 'a',
         LbToken.Error] := by
  constructor
  · intro c rest hws hbang hmem
    simp only [List.mem_cons, List.not_mem_nil, or_false, not_or] at hmem
    obtain ⟨hS, hC, hA, hP, hM, hB, hL, hI, hU, hW, hR, hG, hN, hF, hX⟩ := hmem
    have n1 : m_SaveNumber c rest = none := by simp [m_SaveNumber, hS]
    have n2 : m_SaveStr c rest = none := by simp [m_SaveStr, hS]
    have n3 : m_Copy c rest = none := by simp [m_Copy, hC]
    have n4 : m_Append c rest = none := by simp [m_Append, hA]
    have n5 : m_PrintVar c rest = none := by simp [m_PrintVar, hP]
    have n6 : m_PrintStr c rest = none := by simp [m_PrintStr, hP]
    have n7 : m_MathOp c rest = none := by simp [m_MathOp, hM]
    have n8 : m_BoolOp c rest = none := by simp [m_BoolOp, hB]
    have n9 : m_Ctrl c rest = none := by simp [m_Ctrl, hL, hI, hU, hW]
    have n10 : m_ResetVar c rest = none := by simp [m_ResetVar, hR]
    have n11 : m_ResetAll c rest = none := by simp [m_ResetAll, hR]
    have n12 : m_GetInput c rest = none := by simp [m_GetInput, hG]
    have n13 : m_Negate c rest = none := by simp [m_Negate, hN]
    have n14 : m_Finish c rest = none := by simp [m_Finish, hF]
    have n15 : m_Execute c rest = none := by simp [m_Execute, hX]
    have scanRes : scanOne lex_sub c rest = (LbToken.Error, rest) := by
      unfold scanOne
      rw [n1, n2, n3, n4, n5, n6, n7, n8, n9, n10, n11, n12, n13, n14, n15]
    show tokenizeF ((c :: rest).length + 1) (c :: rest)
        = LbToken.Error :: tokenizeF (rest.length + 1) rest
    have hlen : (c :: rest).length + 1 = (rest.length + 1) + 1 := by simp
    rw [hlen]
    simp only [tokenizeF]
    rw [nextTok_cons_isSome c rest hws hbang, scanRes]
  · decide

/-- Claim C6 witness: the general statement applied to the single
unmatched character `i`. -/
theorem error_token_single_char_recovery_witness :
    tokenize (['i'] : List Char) = LbToken.Error :: tokenize [] :=
  error_token_single_char_recovery.1 'i' [] (by decide) (by decide) (by decide)

/-- Claim C3 counterexample: `set_var` with the invalid name `!` does not
fail with an error and does not leave the store unchanged — it returns
`Ok(())` and stores the value under `!`. -/
theorem set_var_invalid_name_succeeds :
    (LbStorage.new.set_var '!' (Val.Number 5)).1 = Except.ok ()
  ∧ ((LbStorage.new.set_var '!' (Val.Number 5)).2).data '!' = some (Val.Number 5)
  ∧ LbStorage.new.data '!' = none := by
  refine ⟨rfl, ?_, rfl⟩
  simp [LbStorage.set_var, LbStorage.new]

/-- Claim C3 (amended): for every character name — also outside `a`–`z` —
`set_var` returns `Ok(())` and overwrites the slot unconditionally with the
new value, with no validity or type-compatibility check; all other slots
are untouched. -/
theorem set_var_unconditional (s : LbStorage) (c : Char) (v : Val) :
    (s.set_var c v).1 = Except.ok ()
  ∧ ((s.set_var c v).2).data c = some v
  ∧ ∀ x : Char, ¬ x = c → ((s.set_var c v).2).data x = s.data x := by
  refine ⟨rfl, by simp [LbStorage.set_var], ?_⟩
  intro x hx
  simp [LbStorage.set_var, hx]

/-- Claim C3 witness: `set_var` applied to the invalid name `#`. -/
theorem set_var_unconditional_witness :
    (LbStorage.new.set_var '#' (Val.Text ("t"))).1 = Except.ok ()
  ∧ ((LbStorage.new.set_var '#' (Val.Text ("t"))).2).data '#' = some (Val.Text ("t"))
  ∧ ((LbStorage.new.set_var '#' (Val.Text ("t"))).2).data 'z' = LbStorage.new.data 'z' :=
  ⟨(set_var_unconditional LbStorage.new '#' (Val.Text ("t"))).1,
   (set_var_unconditional LbStorage.new '#' (Val.Text ("t"))).2.1,
   (set_var_unconditional LbStorage.new '#' (Val.Text ("t"))).2.2 'z' (by decide)⟩

/-- Claim C4 counterexample: `copy` from the valid name `a` to the invalid
name `!` does not fail — it returns `Ok(())` and writes the cloned value
(the materialized zero default of `a`) under `!`. -/
theorem copy_invalid_target_succeeds :
    (LbStorage.new.copy 'a' '!').map (fun r => (r.1, r.2.data '!', r.2.data 'a'))
      = some (Except.ok (), some (Val.Number 0), some (Val.Number 0)) := by
  rfl

/-- Claim C4 (amended): `copy` panics (the `expect` on `get_var`'s `None`,
modelled as the outer `none`) when the source name is outside `a`–`z`;
when the source name is valid it reads the source (materializing the zero
default if unset), clones the value, writes the clone to the destination
unconditionally — even when the destination is invalid — and returns
`Ok(())`. -/
theorem copy_reads_clones_writes (s : LbStorage) (a b : Char) :
    (is_var a = false → s.copy a b = none)
  ∧ (is_var a = true →
      (s.copy a b).map (fun r => (r.1, r.2.data b))
        = some (Except.ok (), some ((s.data a).getD Val.zero))) := by
  constructor
  · intro h
    simp [LbStorage.copy, LbStorage.get_var, h]
  · intro h
    cases hd : s.data a with
    | none =>
      simp [LbStorage.copy, LbStorage.get_var, LbStorage.set_var, h, hd]
    | some w =>
      simp [LbStorage.copy, LbStorage.get_var, LbStorage.set_var, h, hd]

/-- Claim C4 witness: `copy` with invalid source `!` panics; `copy` from
`a` to `b` on a fresh store succeeds and writes the zero default. -/
theorem copy_reads_clones_writes_witness :
    LbStorage.new.copy '!' 'b' = none
  ∧ (LbStorage.new.copy 'a' 'b').map (fun r => (r.1, r.2.data 'b'))
      = some (Except.ok (), some ((LbStorage.new.data 'a').getD Val.zero)) :=
  ⟨(copy_reads_clones_writes LbStorage.new '!' 'b').1 (by decide),
   (copy_reads_clones_writes LbStorage.new 'a' 'b').2 (by decide)⟩

/-- Claim C5: `get_var` returns the failure `None` for every name outside
`a`–`z`, leaving the store untouched; for a valid name on which no `set`
has been performed it returns `Number(0.0)` and materializes that zero
default into the store. -/
theorem get_var_invalid_and_default (s : LbStorage) (c : Char) :
    (is_var c = false → s.get_var c = (none, s))
  ∧ (is_var c = true → s.data c = none →
      s.get_var c = (some (Val.Number 0),
        ⟨fun x => if x = c then some (Val.Number 0) else s.data x⟩)) := by
  constructor
  · intro h
    simp [LbStorage.get_var, h]
  · intro h hd
    simp [LbStorage.get_var, h, hd, Val.zero]

/-- Claim C5 witness: `get_var` on the invalid name `!` and on the unset
valid name `q` of a fresh store. -/
theorem get_var_invalid_and_default_witness :
    LbStorage.new.get_var '!' = (none, LbStorage.new)
  ∧ LbStorage.new.get_var 'q'
      = (some (Val.Number 0),
         ⟨fun x => if x = 'q' then some (Val.Number 0) else LbStorage.new.data x⟩) :=
  ⟨(get_var_invalid_and_default LbStorage.new '!').1 (by decide),
   (get_var_invalid_and_default LbStorage.new 'q').2 (by decide) rfl⟩

/-- Claim C7: for every valid name, `var_as_bool` returns the boolean
reading of the stored-or-defaulted value, and that reading is `false`
exactly when the value is `Number(0.0)`; every stored `Text`, even the
empty string, reads `true`. -/
theorem var_as_bool_false_iff_zero (s : LbStorage) (c : Char)
    (h : is_var c = true) :
    s.var_as_bool c
      = some (some (valTruthy ((s.data c).getD Val.zero)), (s.get_var c).2)
  ∧ (∀ v : Val, valTruthy v = false ↔ v = Val.Number 0)
  ∧ (∀ t : String, valTruthy (Val.Text t) = true) := by
  refine ⟨?_, ?_, fun t => rfl⟩
  · cases hd : s.data c with
    | none => simp [LbStorage.var_as_bool, LbStorage.get_var, h, hd]
    | some w => simp [LbStorage.var_as_bool, LbStorage.get_var, h, hd]
  · intro v
    cases v with
    | Number n =>
      by_cases hn : n = 0 <;> simp [valTruthy, hn, Val.zero]
    | Text t => simp [valTruthy]

/-- Claim C7 witness: `var_as_bool` on the valid name `a` of a fresh
store. -/
theorem var_as_bool_false_iff_zero_witness :
    LbStorage.new.var_as_bool 'a'
      = some (some (valTruthy ((LbStorage.new.data 'a').getD Val.zero)),
              (LbStorage.new.get_var 'a').2) :=
  (var_as_bool_false_iff_zero LbStorage.new 'a' (by decide)).1

/-- Claim C8 counterexample: for the (non-distinct) pair of valid names
`('a','a')`, the value copied into the target by `copy` is `Number 0`, yet
after subsequently mutating the source via `set_var` the target's slot
holds `Number 1` — the claimed preservation fails for this pair. -/
theorem copy_same_name_not_preserved :
    (LbStorage.new.copy 'a' 'a').map (fun r => r.2.data 'a')
      = some (some (Val.Number 0))
  ∧ (LbStorage.new.copy 'a' 'a').map
        (fun r => ((r.2.set_var 'a' (Val.Number 1)).2).data 'a')
      = some (some (Val.Number 1)) := by
  exact ⟨by decide, by decide⟩

/-- Claim C8 (amended): for every pair of distinct valid names `a ≠ b`,
`copy(a, b)` writes the clone of `a`'s stored-or-defaulted value into `b`,
leaves `a`'s value reading unchanged, and subsequently mutating `a` via
`set_var` leaves the value previously copied into `b` unchanged (deep, not
aliased). -/
theorem copy_deep_distinct (s : LbStorage) (a b : Char) (v : Val)
    (ha : is_var a = true) (hb : is_var b = true) (hab : ¬ b = a) :
    (s.copy a b).map
        (fun r => (r.2.data b, (r.2.data a).getD Val.zero,
                   ((r.2.set_var a v).2).data b))
      = some (some ((s.data a).getD Val.zero), (s.data a).getD Val.zero,
              some ((s.data a).getD Val.zero)) := by
  have hba : ¬ a = b := fun e => hab e.symm
  cases hd : s.data a with
  | none =>
    simp [LbStorage.copy, LbStorage.get_var, LbStorage.set_var, ha, hd, hab, hba]
  | some w =>
    simp [LbStorage.copy, LbStorage.get_var, LbStorage.set_var, ha, hd, hab, hba]

/-- Claim C8 witness: the amended statement at the distinct valid pair
`('a','b')` with mutation value `Number 9`. -/
theorem copy_deep_distinct_witness :
    (LbStorage.new.copy 'a' 'b').map
        (fun r => (r.2.data 'b', (r.2.data 'a').getD Val.zero,
                   ((r.2.set_var 'a' (Val.Number 9)).2).data 'b'))
      = some (some ((LbStorage.new.data 'a').getD Val.zero),
              (LbStorage.new.data 'a').getD Val.zero,
              some ((LbStorage.new.data 'a').getD Val.zero)) :=
  copy_deep_distinct LbStorage.new 'a' 'b' (Val.Number 9)
    (by decide) (by decide) (by decide)

/-- Claim C9: `set_var` then `get_var` round-trips the exact stored value,
for every valid name and every value (number or text). -/
theorem set_then_get_roundtrip (s : LbStorage) (c : Char) (v : Val)
    (h : is_var c = true) :
    (((s.set_var c v).2).get_var c).1 = some v := by
  simp [LbStorage.set_var, LbStorage.get_var, h]

/-- Claim C9 witness: the round-trip at name `a` and value `Number 7`. -/
theorem set_then_get_roundtrip_witness :
    (((LbStorage.new.set_var 'a' (Val.Number 7)).2).get_var 'a').1
      = some (Val.Number 7) :=
  set_then_get_roundtrip LbStorage.new 'a' (Val.Number 7) (by decide)

/-- Claim C10: for every valid name, `var_as_bool` and `copy` (with that
name as source) never panic; for every name outside `a`–`z`, `var_as_bool`
on it, and `copy` from it, reach the panic of the `expect` on `get_var`'s
`None` (modelled as the outer `none`) instead of returning `None` or an
error result. -/
theorem var_as_bool_copy_panic_spec (s : LbStorage) (c b : Char) :
    (is_var c = true →
        (s.var_as_bool c).isSome = true ∧ (s.copy c b).isSome = true)
  ∧ (is_var c = false → s.var_as_bool c = none ∧ s.copy c b = none) := by
  constructor
  · intro h
    cases hd : s.data c with
    | none =>
      simp [LbStorage.var_as_bool, LbStorage.copy, LbStorage.get_var, h, hd]
    | some w =>
      simp [LbStorage.var_as_bool, LbStorage.copy, LbStorage.get_var, h, hd]
  · intro h
    simp [LbStorage.var_as_bool, LbStorage.copy, LbStorage.get_var, h]

/-- Claim C10 witness: no panic at the valid name `a`; panic at the
invalid name `!`. -/
theorem var_as_bool_copy_panic_spec_witness :
    ((LbStorage.new.var_as_bool 'a').isSome = true
      ∧ (LbStorage.new.copy 'a' 'b').isSome = true)
  ∧ (LbStorage.new.var_as_bool '!' = none ∧ LbStorage.new.copy '!' 'b' = none) :=
  ⟨(var_as_bool_copy_panic_spec LbStorage.new 'a' 'b').1 (by decide),
   (var_as_bool_copy_panic_spec LbStorage.new '!' 'b').2 (by decide)⟩
